import Mathlib

/-!
Verification of the measurement core of the monitoring test harness
(`tests/manage/monitoring/conftest.py`): the `measure_operation`
orchestrator, its background alert-polling loop `prometheus_log`, and the
fault-scenario fixtures `measure_stop_ceph_mgr` / `measure_stop_ceph_mon`.

Modelling conventions of the shallow embedding:

* JSON documents (the result-file format, alert payloads, cluster resource
  objects) are modelled by the inductive `Value`; arrays and objects are
  encoded as cons-cell chains so that equality stays decidable.
* Wall-clock time is modelled by a rational clock that is advanced by the
  declared duration of each blocking step (`operation()` and the
  `time.sleep` calls); `time.time()` reads the current clock value.
* The background watcher thread is modelled by the sequence of poll
  responses it receives while it runs (`List PollResponse`); `prometheus_log`
  processes them in order.  A failed `assert` inside a Python
  `threading.Thread` terminates only that thread: `Thread.join` in the main
  thread still returns normally and the exception is not re-raised there.
  The embedding therefore records the thread's death in a `died` flag
  instead of propagating it into the result of `measure_operation`.
* Filesystem side effects are made explicit: the result file is a value of
  type `Option FileSlot` threaded in and out, and the `oc` scale commands
  issued by the scenario closures are collected in a list of strings.
* `json.load` raises only when the file is not well-formed JSON text
  (modelled by `SlotContent.truncated`); a well-formed document of any
  shape is returned as-is — the source performs no record-shape validation
  on the cached result.
-/

/-- JSON-like values: the payloads stored in the result file, alert objects
returned by the alerting API, and cluster resource objects.  Arrays and
objects are cons-cell chains (`arrNil`/`arrCons`, `objNil`/`objCons`) so the
type is a plain inductive with derivable decidable equality. -/
inductive Value where
  | null : Value
  | str : String → Value
  | num : ℚ → Value
  | arrNil : Value
  | arrCons : Value → Value → Value
  | objNil : Value
  | objCons : String → Value → Value → Value
deriving DecidableEq, Repr

/-- Encode a Lean list of values as a JSON array value. -/
def Value.ofList : List Value → Value
  | [] => .arrNil
  | v :: vs => .arrCons v (Value.ofList vs)

/-- Decode a JSON array value back into a Lean list (`none` when the value
is not an array). -/
def Value.toList : Value → Option (List Value)
  | .arrNil => some []
  | .arrCons v rest => (Value.toList rest).map (v :: ·)
  | _ => none

/-- Field lookup in a JSON object value (`none` when the value is not an
object or the key is absent). -/
def Value.lookup : Value → String → Option Value
  | .objCons k v rest, key => if k = key then some v else Value.lookup rest key
  | _, _ => none

/-- Decode a JSON number (`none` otherwise). -/
def Value.toNum : Value → Option ℚ
  | .num q => some q
  | _ => none

theorem Value.toList_ofList (l : List Value) : Value.toList (Value.ofList l) = some l := by
  induction l with
  | nil => rfl
  | cons v vs ih => simp [Value.ofList, Value.toList, ih]

/-- The measurement record produced by `measure_operation` (the `results`
dictionary of the source): start/stop timestamps, the operation's result,
caller metadata and the accumulated alert log. -/
structure MeasurementRecord where
  start : ℚ
  stop : ℚ
  result : Value
  metadata : Value
  prometheus_alerts : List Value
deriving DecidableEq, Repr

/-- Serialization of a record into the JSON document written by
`json.dump(results, outfile)` (conftest.py line 139). -/
def recordToValue (r : MeasurementRecord) : Value :=
  .objCons "start" (.num r.start)
    (.objCons "stop" (.num r.stop)
      (.objCons "result" r.result
        (.objCons "metadata" r.metadata
          (.objCons "prometheus_alerts" (Value.ofList r.prometheus_alerts) .objNil))))

/-- Structural parse of a JSON document as a measurement record, the shape
`json.load` must deliver for the cached-result path (conftest.py lines
91-92) to yield a usable record. -/
def parseRecord (v : Value) : Option MeasurementRecord :=
  match v.lookup "start", v.lookup "stop", v.lookup "result",
      v.lookup "metadata", v.lookup "prometheus_alerts" with
  | some vstart, some vstop, some vres, some vmeta, some valerts =>
    match vstart.toNum, vstop.toNum, valerts.toList with
    | some qstart, some qstop, some alerts =>
      some ⟨qstart, qstop, vres, vmeta, alerts⟩
    | _, _, _ => none
  | _, _, _, _, _ => none

theorem parseRecord_recordToValue (r : MeasurementRecord) :
    parseRecord (recordToValue r) = some r := by
  simp [parseRecord, recordToValue, Value.lookup, Value.toNum, Value.toList_ofList]

/-- One response of the alerting API to a `prometheus.get('alerts', ...)`
poll: `some alerts` is a successful (2xx) response carrying the
`data.alerts` array, `none` is a non-success response (for which
`alerts_response.ok` is false). -/
def PollResponse : Type := Option (List Value)

/-- What a run of the watcher thread leaves behind: the shared alert list
it accumulated, whether the thread died on the `assert alerts_response.ok`
(conftest.py line 76), and how many API calls it issued. -/
structure WatcherRun where
  alerts : List Value
  died : Bool
  calls : Nat
deriving DecidableEq, Repr

/-- The body of the alert-accumulation loop of `prometheus_log`
(conftest.py lines 77-80): append an alert to the shared list unless a
structurally equal alert is already present. -/
def processAlert (alert_list : List Value) (alert : Value) : List Value :=
  if alert ∈ alert_list then alert_list else alert_list ++ [alert]

/-- The watcher thread `prometheus_log` (conftest.py lines 56-82), applied
to the sequence of poll responses it receives before the orchestrator
clears `info['run']`.  A non-success response fails the `assert`, which
kills the thread: accumulation stops and no further poll is issued. -/
def prometheus_log : List PollResponse → List Value → WatcherRun
  | [], alert_list => ⟨alert_list, false, 0⟩
  | (none : Option (List Value)) :: _, alert_list => ⟨alert_list, true, 1⟩
  | (some alerts : Option (List Value)) :: rest, alert_list =>
    let w := prometheus_log rest (alerts.foldl processAlert alert_list)
    ⟨w.alerts, w.died, w.calls + 1⟩

/-- Content of an existing result file as `json.load` sees it: `value v`
is a file holding the well-formed JSON document `v`; `truncated` is a file
that is not valid JSON text at all — for example the empty file
`open(path, 'w')` leaves behind before `json.dump` has written the
document — the only case in which `json.load` raises. -/
inductive SlotContent where
  | truncated : SlotContent
  | value : Value → SlotContent
deriving DecidableEq, Repr

/-- A result file that exists on disk. -/
structure FileSlot where
  readable : Bool
  content : SlotContent
deriving DecidableEq, Repr

/-- Parse the content of an existing result file as a measurement record. -/
def parseSlot : SlotContent → Option MeasurementRecord
  | .truncated => none
  | .value v => parseRecord v

/-- The condition of conftest.py line 86:
`os.path.isfile(result_file) and os.access(result_file, os.R_OK)`. -/
def isReadableFile : Option FileSlot → Bool
  | some slot => slot.readable
  | none => false

/-- The caller-supplied `operation` closure, made explicit: how long one
call blocks, the value it returns, and the `oc` commands it issues. -/
structure OpSpec where
  duration : ℚ
  result : Value
  commands : List String
deriving DecidableEq, Repr

/-- Errors `measure_operation` can raise in the main thread.
`deserialization` is `json.load` failing on an existing readable file. -/
inductive MeasureError where
  | deserialization
deriving DecidableEq, Repr

instance {ε α : Type} [DecidableEq ε] [DecidableEq α] : DecidableEq (Except ε α) := fun x y =>
  match x, y with
  | .ok a, .ok b =>
    if h : a = b then isTrue (by rw [h]) else isFalse (fun hc => h (Except.ok.inj hc))
  | .error a, .error b =>
    if h : a = b then isTrue (by rw [h]) else isFalse (fun hc => h (Except.error.inj hc))
  | .ok _, .error _ => isFalse (fun hc => Except.noConfusion hc)
  | .error _, .ok _ => isFalse (fun hc => Except.noConfusion hc)

/-- Everything observable about one call of `measure_operation`: the JSON
document it returns (`json.load`'s unvalidated result on a cache hit, the
freshly serialized record otherwise) or the error it raises, whether the
operation closure was invoked, whether the watcher thread was started, the
number of alerting-API calls made, whether the watcher thread died on a
failed assert, the state of the result file afterwards, and the `oc`
commands issued. -/
structure MeasureResult where
  outcome : Except MeasureError Value
  opInvoked : Bool
  watcherStarted : Bool
  apiCalls : Nat
  threadDied : Bool
  fsAfter : Option FileSlot
  commands : List String
deriving DecidableEq, Repr

/-- The cache-hit branch of `measure_operation` (conftest.py lines 86-95):
`json.load` succeeds on any well-formed document and the loaded value is
returned as-is, with no record-shape validation; nothing is touched. -/
def cacheHitResult (result_file : Option FileSlot) (results : Value) :
    MeasureResult :=
  { outcome := .ok results, opInvoked := false, watcherStarted := false,
    apiCalls := 0, threadDied := false, fsAfter := result_file, commands := [] }

/-- The cache branch when `json.load` raises — the readable file does not
hold well-formed JSON text: the error propagates out of
`measure_operation` before anything else has happened. -/
def cacheCorruptResult (result_file : Option FileSlot) : MeasureResult :=
  { outcome := .error .deserialization, opInvoked := false,
    watcherStarted := false, apiCalls := 0, threadDied := false,
    fsAfter := result_file, commands := [] }

/-- The extra sleep of conftest.py lines 122-125: `if minimal_time:`
(Python truthiness, so `None` and `0` both skip the block) compute
`additional_time = minimal_time - passed_time` and sleep it when positive. -/
def minimalTimeExtension (minimal_time : Option ℚ) (passed_time : ℚ) : ℚ :=
  match minimal_time with
  | none => 0
  | some m => if m = 0 then 0 else max (m - passed_time) 0

/-- The measurement branch of `measure_operation` (conftest.py lines
99-139), entered when there is no readable result file: start the watcher
thread, run the operation, capture `start_time` before the operation
(`measure_after` false) or right after it (`measure_after` true), extend
the run to `minimal_time` if needed, capture `stop_time`, stop and join the
watcher, build the record and dump it into the result file.  `t0` is the
wall-clock value when the branch is entered. -/
def freshMeasurement (operation : OpSpec) (polls : List PollResponse)
    (minimal_time : Option ℚ) (metadata : Value) (measure_after : Bool)
    (t0 : ℚ) : MeasureResult :=
  let w := prometheus_log polls []
  let clockAfterOp := t0 + operation.duration
  let start_time := if measure_after then clockAfterOp else t0
  let passed_time := clockAfterOp - start_time
  let stop_time := clockAfterOp + minimalTimeExtension minimal_time passed_time
  let results : MeasurementRecord :=
    { start := start_time, stop := stop_time, result := operation.result,
      metadata := metadata, prometheus_alerts := w.alerts }
  { outcome := .ok (recordToValue results), opInvoked := true, watcherStarted := true,
    apiCalls := w.calls, threadDied := w.died,
    fsAfter := some { readable := true, content := .value (recordToValue results) },
    commands := operation.commands }

/-- `measure_operation` (conftest.py lines 16-140): if the result file
exists and is readable, `json.load` it and return whatever document it
holds — raising only when the file is not well-formed JSON — otherwise
measure and persist. -/
def measure_operation (operation : OpSpec) (result_file : Option FileSlot)
    (polls : List PollResponse) (minimal_time : Option ℚ) (metadata : Value)
    (measure_after : Bool) (t0 : ℚ) : MeasureResult :=
  match result_file with
  | some slot =>
    if slot.readable then
      match slot.content with
      | .truncated => cacheCorruptResult result_file
      | .value results => cacheHitResult result_file results
    else
      freshMeasurement operation polls minimal_time metadata measure_after t0
  | none => freshMeasurement operation polls minimal_time metadata measure_after t0

theorem measure_operation_of_not_readable (operation : OpSpec)
    (result_file : Option FileSlot) (polls : List PollResponse)
    (minimal_time : Option ℚ) (metadata : Value) (measure_after : Bool)
    (t0 : ℚ) (h : isReadableFile result_file = false) :
    measure_operation operation result_file polls minimal_time metadata
      measure_after t0 =
    freshMeasurement operation polls minimal_time metadata measure_after t0 := by
  cases result_file with
  | none => rfl
  | some slot =>
    simp only [isReadableFile] at h
    simp [measure_operation, h]

/-- The `oc scale` command issued by the scenario closures
(conftest.py lines 205, 213, 263, 283). -/
def scaleCmd (replicas : Nat) (name : String) : String :=
  s!"scale --replicas={replicas} deployment/{name}"

/-- Modelled from the spec: the cluster resource API client (`ocp.OCP`) is
not among the measured sources; the spec describes its read operation as
`get(name) -> resource object` where each resource object carries
`metadata.name`.  This is the minimal such resource object. -/
def ocGetResource (name : String) : Value :=
  .objCons "metadata" (.objCons "name" (.str name) .objNil) .objNil

/-- Errors a fault-scenario fixture can raise: the `IndexError` of
`mgr_deployments[0]` on an empty listing, an error propagated out of
`measure_operation`, and the failed postcondition assert of the monitor
scenario (conftest.py line 285). -/
inductive ScenarioError where
  | indexError : ScenarioError
  | measure : MeasureError → ScenarioError
  | postcondition : ScenarioError
deriving DecidableEq, Repr

/-- Everything observable about one run of a scenario fixture: the
document it returns (or the error it raises) and the `oc` scale commands
executed, in order. -/
structure ScenarioResult where
  outcome : Except ScenarioError Value
  commands : List String
deriving DecidableEq, Repr

/-- The `measure_stop_ceph_mgr` fixture (conftest.py lines 171-214).
`mgrNames` is `metadata.name` of each item listed for the manager label;
the `stop_mgr` closure scales the first one to 0, sleeps `60 * 6` seconds
and returns `oc.get(mgr)`; after `measure_operation` returns, the fixture
scales the deployment back to 1. -/
def measure_stop_ceph_mgr (mgrNames : List String)
    (result_file : Option FileSlot) (polls : List PollResponse) (t0 : ℚ) :
    ScenarioResult :=
  match mgrNames with
  | [] => { outcome := .error .indexError, commands := [] }
  | mgr :: _ =>
    let stop_mgr : OpSpec :=
      { duration := 60 * 6, result := ocGetResource mgr,
        commands := [scaleCmd 0 mgr] }
    let m := measure_operation stop_mgr result_file polls none .null false t0
    match m.outcome with
    | .error e => { outcome := .error (.measure e), commands := m.commands }
    | .ok measured_op =>
      { outcome := .ok measured_op, commands := m.commands ++ [scaleCmd 1 mgr] }

/-- The split index of the monitor scenario (conftest.py line 238):
`len(mons) // 2 if len(mons) > 3 else 2`. -/
def monSplitIndex (mons : List String) : Nat :=
  if mons.length > 3 then mons.length / 2 else 2

/-- The `measure_stop_ceph_mon` fixture (conftest.py lines 217-287).
`mons` is the initial listing of monitor deployment names; `relisted` is
the listing taken again after the measurement (self-healing is performed by
the cluster, outside this code).  The `stop_mon` closure scales
`mons[split_index:]` to 0, sleeps `60 * 12` seconds and returns their
names; afterwards the fixture checks that every stopped name is gone from
the new listing and, when one is still present, scales each stopped
deployment back to 1 and fails the assert. -/
def measure_stop_ceph_mon (mons : List String) (relisted : List String)
    (result_file : Option FileSlot) (polls : List PollResponse) (t0 : ℚ) :
    ScenarioResult :=
  let mons_to_stop := mons.drop (monSplitIndex mons)
  let stop_mon : OpSpec :=
    { duration := 60 * 12,
      result := Value.ofList (mons_to_stop.map .str),
      commands := mons_to_stop.map (scaleCmd 0) }
  let m := measure_operation stop_mon result_file polls none .null false t0
  match m.outcome with
  | .error e => { outcome := .error (.measure e), commands := m.commands }
  | .ok measured_op =>
    let check_old_mons_deleted := mons_to_stop.all (fun mon => mon ∉ relisted)
    if check_old_mons_deleted then
      { outcome := .ok measured_op, commands := m.commands }
    else
      { outcome := .error .postcondition,
        commands := m.commands ++ mons_to_stop.map (scaleCmd 1) }

/-- The sequence of result-file states a concurrent reader can observe
while conftest.py lines 137-139 run: `open(result_file, 'w')` truncates the
file in place, then `json.dump` writes the document, so the slot passes
through a truncated state before holding the record.  There is no temp
file or rename step in the source. -/
def saveObservableStates (r : MeasurementRecord) : List FileSlot :=
  [ { readable := true, content := .truncated },
    { readable := true, content := .value (recordToValue r) } ]

/-- First-occurrence deduplication, stated independently of the
accumulation loop: keep each element at the position of its first
occurrence and drop every later structurally equal copy. -/
def firstOccur : List Value → List Value
  | [] => []
  | a :: rest => a :: firstOccur (rest.filter (fun b => !decide (b = a)))
termination_by l => l.length
decreasing_by
  simp only [List.length_cons]
  exact Nat.lt_succ_of_le (List.length_filter_le _ _)

theorem firstOccur_nil : firstOccur [] = [] := by
  rw [firstOccur]

theorem firstOccur_cons (a : Value) (rest : List Value) :
    firstOccur (a :: rest) = a :: firstOccur (rest.filter (fun b => !decide (b = a))) := by
  rw [firstOccur]

theorem mem_firstOccur : ∀ (l : List Value) (x : Value), x ∈ firstOccur l ↔ x ∈ l
  | [], x => by simp [firstOccur_nil]
  | a :: rest, x => by
    rw [firstOccur_cons]
    have ih := mem_firstOccur (rest.filter (fun b => !decide (b = a))) x
    simp only [List.mem_cons, ih, List.mem_filter, Bool.not_eq_eq_eq_not,
      Bool.not_true, decide_eq_false_iff_not]
    constructor
    · rintro (h | ⟨h, _⟩)
      · exact Or.inl h
      · exact Or.inr h
    · rintro (h | h)
      · exact Or.inl h
      · by_cases hx : x = a
        · exact Or.inl hx
        · exact Or.inr ⟨h, hx⟩
termination_by l _ => l.length
decreasing_by
  simp only [List.length_cons]
  exact Nat.lt_succ_of_le (List.length_filter_le _ _)

theorem nodup_firstOccur : ∀ (l : List Value), (firstOccur l).Nodup
  | [] => by simp [firstOccur_nil]
  | a :: rest => by
    rw [firstOccur_cons]
    refine List.nodup_cons.2 ⟨?_, nodup_firstOccur (rest.filter (fun b => !decide (b = a)))⟩
    intro hmem
    have := (mem_firstOccur _ a).1 hmem
    simp at this
termination_by l => l.length
decreasing_by
  simp only [List.length_cons]
  exact Nat.lt_succ_of_le (List.length_filter_le _ _)

theorem foldl_processAlert (xs : List Value) :
    ∀ acc : List Value,
      xs.foldl processAlert acc =
        acc ++ firstOccur (xs.filter (fun a => !decide (a ∈ acc))) := by
  induction xs with
  | nil => intro acc; simp [firstOccur_nil]
  | cons x xs ih =>
    intro acc
    by_cases hx : x ∈ acc
    · have hstep : processAlert acc x = acc := by simp [processAlert, hx]
      rw [List.foldl_cons, hstep, ih acc]
      have hfilter :
          (x :: xs).filter (fun a => !decide (a ∈ acc)) =
            xs.filter (fun a => !decide (a ∈ acc)) := by
        simp [List.filter_cons, hx]
      rw [hfilter]
    · have hstep : processAlert acc x = acc ++ [x] := by simp [processAlert, hx]
      rw [List.foldl_cons, hstep, ih (acc ++ [x])]
      have hfilter1 :
          (x :: xs).filter (fun a => !decide (a ∈ acc)) =
            x :: xs.filter (fun a => !decide (a ∈ acc)) := by
        simp [List.filter_cons, hx]
      rw [hfilter1, firstOccur_cons, List.append_assoc, List.singleton_append]
      have hfilter2 :
          xs.filter (fun a => !decide (a ∈ acc ++ [x])) =
            (xs.filter (fun a => !decide (a ∈ acc))).filter (fun b => !decide (b = x)) := by
        rw [List.filter_filter]
        apply List.filter_congr
        intro b _
        by_cases hb : b = x
        · simp [hb]
        · by_cases hbacc : b ∈ acc <;> simp [hb, hbacc]
      rw [hfilter2]

theorem prometheus_log_all_ok (chunks : List (List Value)) :
    ∀ acc : List Value,
      prometheus_log (chunks.map (fun c => (some c : Option (List Value)))) acc =
        ⟨chunks.flatten.foldl processAlert acc, false, chunks.length⟩ := by
  induction chunks with
  | nil => intro acc; simp [prometheus_log]
  | cons c cs ih =>
    intro acc
    simp only [List.map_cons, prometheus_log, ih, List.flatten_cons,
      List.foldl_append, List.length_cons]

theorem minimalTimeExtension_nonneg (minimal_time : Option ℚ) (passed_time : ℚ) :
    0 ≤ minimalTimeExtension minimal_time passed_time := by
  cases minimal_time with
  | none => simp [minimalTimeExtension]
  | some m =>
    by_cases hm : m = 0 <;> simp [minimalTimeExtension, hm, le_max_right]

theorem freshMeasurement_outcome (operation : OpSpec) (polls : List PollResponse)
    (minimal_time : Option ℚ) (metadata : Value) (measure_after : Bool) (t0 : ℚ) :
    (freshMeasurement operation polls minimal_time metadata measure_after t0).outcome =
      .ok (recordToValue
        { start := if measure_after then t0 + operation.duration else t0,
          stop := (t0 + operation.duration) +
            minimalTimeExtension minimal_time
              ((t0 + operation.duration) -
                (if measure_after then t0 + operation.duration else t0)),
          result := operation.result, metadata := metadata,
          prometheus_alerts := (prometheus_log polls []).alerts }) := rfl

/-- C5: the alert list accumulated by the polling loop contains each
distinct alert value exactly once, at the position of its first occurrence
across iterations, with no reordering: for any sequence of successful poll
responses it equals the first-occurrence deduplication of the concatenated
alert stream, and it has no duplicates.  Deduplication is by full
structural equality of the alert value. -/
theorem alert_accumulation_firstOccur_nodup (chunks : List (List Value)) :
    (prometheus_log (chunks.map (fun c => (some c : Option (List Value)))) []).alerts =
      firstOccur chunks.flatten ∧
    (prometheus_log (chunks.map (fun c => (some c : Option (List Value)))) []).alerts.Nodup ∧
    (∀ a : Value,
      a ∈ (prometheus_log (chunks.map (fun c => (some c : Option (List Value)))) []).alerts ↔
        a ∈ chunks.flatten) ∧
    (∀ a : Value, a ∈ chunks.flatten →
      (prometheus_log (chunks.map (fun c => (some c : Option (List Value)))) []).alerts.count a
        = 1) := by
  have halerts :
      (prometheus_log (chunks.map (fun c => (some c : Option (List Value)))) []).alerts =
        firstOccur chunks.flatten := by
    rw [prometheus_log_all_ok chunks []]
    show chunks.flatten.foldl processAlert [] = firstOccur chunks.flatten
    rw [foldl_processAlert]
    rw [List.filter_eq_self.2 (by intro a _; simp)]
    simp
  refine ⟨halerts, ?_, ?_, ?_⟩
  · rw [halerts]; exact nodup_firstOccur _
  · intro a; rw [halerts]; exact mem_firstOccur _ a
  · intro a ha
    rw [halerts]
    exact List.count_eq_one_of_mem (nodup_firstOccur _) ((mem_firstOccur _ a).2 ha)

/-- C2: when the result file exists, is readable and holds a well-formed
document that deserializes to a measurement record, `measure_operation`
returns exactly that stored document and performs no side effect: the
operation closure is not invoked, the watcher is not started, no
alerting-API call is made, no command is issued and the file is left
unchanged; a second call on the resulting file state, with arbitrary
arguments, returns the identical result. -/
theorem measure_operation_cache_hit_idempotent (operation : OpSpec)
    (slot : FileSlot) (polls : List PollResponse) (minimal_time : Option ℚ)
    (metadata : Value) (measure_after : Bool) (t0 : ℚ) (v : Value)
    (r : MeasurementRecord) (hread : slot.readable = true)
    (hcontent : slot.content = .value v) (hparse : parseRecord v = some r) :
    (measure_operation operation (some slot) polls minimal_time metadata
        measure_after t0).outcome = .ok v ∧
    parseRecord v = some r ∧
    (measure_operation operation (some slot) polls minimal_time metadata
        measure_after t0).opInvoked = false ∧
    (measure_operation operation (some slot) polls minimal_time metadata
        measure_after t0).watcherStarted = false ∧
    (measure_operation operation (some slot) polls minimal_time metadata
        measure_after t0).apiCalls = 0 ∧
    (measure_operation operation (some slot) polls minimal_time metadata
        measure_after t0).fsAfter = some slot ∧
    (measure_operation operation (some slot) polls minimal_time metadata
        measure_after t0).commands = [] ∧
    ∀ (op2 : OpSpec) (polls2 : List PollResponse) (mt2 : Option ℚ)
      (meta2 : Value) (ma2 : Bool) (t1 : ℚ),
      measure_operation op2
          (measure_operation operation (some slot) polls minimal_time metadata
            measure_after t0).fsAfter polls2 mt2 meta2 ma2 t1 =
        measure_operation operation (some slot) polls minimal_time metadata
          measure_after t0 := by
  have hcall : measure_operation operation (some slot) polls minimal_time metadata
      measure_after t0 = cacheHitResult (some slot) v := by
    simp [measure_operation, hread, hcontent]
  refine ⟨?_, hparse, ?_, ?_, ?_, ?_, ?_, ?_⟩ <;>
    simp only [hcall, cacheHitResult]
  intro op2 polls2 mt2 meta2 ma2 t1
  simp [measure_operation, hread, hcontent, cacheHitResult]

theorem measure_operation_cache_hit_idempotent_witness :
    (measure_operation ⟨5, .null, []⟩
        (some ⟨true, .value (recordToValue ⟨1, 2, .str "res", .null, []⟩)⟩)
        [] none .null false 0).outcome =
      .ok (recordToValue ⟨1, 2, .str "res", .null, []⟩) ∧
    parseRecord (recordToValue ⟨1, 2, .str "res", .null, []⟩) =
      some ⟨1, 2, .str "res", .null, []⟩ ∧
    (measure_operation ⟨5, .null, []⟩
        (some ⟨true, .value (recordToValue ⟨1, 2, .str "res", .null, []⟩)⟩)
        [] none .null false 0).opInvoked = false ∧
    (measure_operation ⟨5, .null, []⟩
        (some ⟨true, .value (recordToValue ⟨1, 2, .str "res", .null, []⟩)⟩)
        [] none .null false 0).watcherStarted = false ∧
    (measure_operation ⟨5, .null, []⟩
        (some ⟨true, .value (recordToValue ⟨1, 2, .str "res", .null, []⟩)⟩)
        [] none .null false 0).apiCalls = 0 ∧
    (measure_operation ⟨5, .null, []⟩
        (some ⟨true, .value (recordToValue ⟨1, 2, .str "res", .null, []⟩)⟩)
        [] none .null false 0).fsAfter =
      some ⟨true, .value (recordToValue ⟨1, 2, .str "res", .null, []⟩)⟩ ∧
    (measure_operation ⟨5, .null, []⟩
        (some ⟨true, .value (recordToValue ⟨1, 2, .str "res", .null, []⟩)⟩)
        [] none .null false 0).commands = [] ∧
    ∀ (op2 : OpSpec) (polls2 : List PollResponse) (mt2 : Option ℚ)
      (meta2 : Value) (ma2 : Bool) (t1 : ℚ),
      measure_operation op2
          (measure_operation ⟨5, .null, []⟩
            (some ⟨true, .value (recordToValue ⟨1, 2, .str "res", .null, []⟩)⟩)
            [] none .null false 0).fsAfter polls2 mt2 meta2 ma2 t1 =
        measure_operation ⟨5, .null, []⟩
          (some ⟨true, .value (recordToValue ⟨1, 2, .str "res", .null, []⟩)⟩)
          [] none .null false 0 :=
  measure_operation_cache_hit_idempotent ⟨5, .null, []⟩
    ⟨true, .value (recordToValue ⟨1, 2, .str "res", .null, []⟩)⟩
    [] none .null false 0 (recordToValue ⟨1, 2, .str "res", .null, []⟩)
    ⟨1, 2, .str "res", .null, []⟩ rfl rfl
    (parseRecord_recordToValue ⟨1, 2, .str "res", .null, []⟩)

/-- C8 counterexample: a readable result file whose content is well-formed
JSON that is not a structurally valid measurement record (the document
`null`) does not make the cache load fail: `json.load` succeeds,
`measure_operation` returns the document unvalidated with no error, and
the manager scenario run on that file even executes a scale command (the
upscale of conftest.py line 213) — refuting the claim that such content
raises a propagated deserialization error and that no scale command runs. -/
theorem wrong_shape_cache_no_error_counterexample :
    parseSlot (.value .null) = none ∧
    (measure_operation ⟨5, .null, []⟩ (some ⟨true, .value .null⟩)
        [] none .null false 0).outcome = .ok .null ∧
    (measure_stop_ceph_mgr ["rook-ceph-mgr-a"] (some ⟨true, .value .null⟩)
        [] 0).outcome = .ok .null ∧
    (measure_stop_ceph_mgr ["rook-ceph-mgr-a"] (some ⟨true, .value .null⟩)
        [] 0).commands = [scaleCmd 1 "rook-ceph-mgr-a"] :=
  ⟨rfl, rfl, rfl, rfl⟩

/-- C8 amended: when the result file exists and is readable but its
content is malformed JSON text — the only case in which `json.load`
raises — the deserialization error is propagated, not recovered, and
nothing else happens: the operation closure is not invoked, the watcher is
not started, no alerting-API call is made, the file is untouched, and a
scenario run on such a file aborts before executing any scale command.
(Well-formed JSON of the wrong shape is not detected; see the
counterexample.) -/
theorem malformed_json_error_no_disruption (operation : OpSpec)
    (slot : FileSlot) (polls : List PollResponse) (minimal_time : Option ℚ)
    (metadata : Value) (measure_after : Bool) (t0 : ℚ)
    (hread : slot.readable = true) (hmalformed : slot.content = .truncated) :
    (measure_operation operation (some slot) polls minimal_time metadata
        measure_after t0).outcome = .error .deserialization ∧
    (measure_operation operation (some slot) polls minimal_time metadata
        measure_after t0).opInvoked = false ∧
    (measure_operation operation (some slot) polls minimal_time metadata
        measure_after t0).watcherStarted = false ∧
    (measure_operation operation (some slot) polls minimal_time metadata
        measure_after t0).apiCalls = 0 ∧
    (measure_operation operation (some slot) polls minimal_time metadata
        measure_after t0).fsAfter = some slot ∧
    (measure_operation operation (some slot) polls minimal_time metadata
        measure_after t0).commands = [] ∧
    (∀ (mgrNames : List String) (polls2 : List PollResponse) (t1 : ℚ),
      (measure_stop_ceph_mgr mgrNames (some slot) polls2 t1).commands = []) ∧
    (∀ (mons relisted : List String) (polls2 : List PollResponse) (t1 : ℚ),
      (measure_stop_ceph_mon mons relisted (some slot) polls2 t1).commands = [] ∧
      (measure_stop_ceph_mon mons relisted (some slot) polls2 t1).outcome =
        .error (.measure .deserialization)) := by
  have hcall : ∀ (op : OpSpec) (p : List PollResponse) (mt : Option ℚ)
      (meta : Value) (ma : Bool) (t : ℚ),
      measure_operation op (some slot) p mt meta ma t = cacheCorruptResult (some slot) := by
    intro op p mt meta ma t
    simp [measure_operation, hread, hmalformed]
  refine ⟨?_, ?_, ?_, ?_, ?_, ?_, ?_, ?_⟩
  · simp [hcall, cacheCorruptResult]
  · simp [hcall, cacheCorruptResult]
  · simp [hcall, cacheCorruptResult]
  · simp [hcall, cacheCorruptResult]
  · simp [hcall, cacheCorruptResult]
  · simp [hcall, cacheCorruptResult]
  · intro mgrNames polls2 t1
    cases mgrNames with
    | nil => rfl
    | cons mgr rest => simp [measure_stop_ceph_mgr, hcall, cacheCorruptResult]
  · intro mons relisted polls2 t1
    constructor <;> simp [measure_stop_ceph_mon, hcall, cacheCorruptResult]

theorem malformed_json_error_no_disruption_witness :
    (measure_operation ⟨5, .null, []⟩ (some ⟨true, .truncated⟩)
        [] none .null false 0).outcome = .error .deserialization ∧
    (measure_operation ⟨5, .null, []⟩ (some ⟨true, .truncated⟩)
        [] none .null false 0).opInvoked = false ∧
    (measure_operation ⟨5, .null, []⟩ (some ⟨true, .truncated⟩)
        [] none .null false 0).watcherStarted = false ∧
    (measure_operation ⟨5, .null, []⟩ (some ⟨true, .truncated⟩)
        [] none .null false 0).apiCalls = 0 ∧
    (measure_operation ⟨5, .null, []⟩ (some ⟨true, .truncated⟩)
        [] none .null false 0).fsAfter = some ⟨true, .truncated⟩ ∧
    (measure_operation ⟨5, .null, []⟩ (some ⟨true, .truncated⟩)
        [] none .null false 0).commands = [] ∧
    (∀ (mgrNames : List String) (polls2 : List PollResponse) (t1 : ℚ),
      (measure_stop_ceph_mgr mgrNames (some ⟨true, .truncated⟩) polls2 t1).commands = []) ∧
    (∀ (mons relisted : List String) (polls2 : List PollResponse) (t1 : ℚ),
      (measure_stop_ceph_mon mons relisted (some ⟨true, .truncated⟩) polls2 t1).commands
        = [] ∧
      (measure_stop_ceph_mon mons relisted (some ⟨true, .truncated⟩) polls2 t1).outcome =
        .error (.measure .deserialization)) :=
  malformed_json_error_no_disruption ⟨5, .null, []⟩ ⟨true, .truncated⟩
    [] none .null false 0 rfl rfl

/-- C10: when the result file exists but is not readable,
`measure_operation` treats it as a cache miss — the operation closure is
invoked, the watcher is started, and the old file is silently overwritten
with the freshly measured record rather than trusted or reported as an
error. -/
theorem unreadable_slot_is_cache_miss_overwrite (operation : OpSpec)
    (slot : FileSlot) (polls : List PollResponse) (minimal_time : Option ℚ)
    (metadata : Value) (measure_after : Bool) (t0 : ℚ)
    (hread : slot.readable = false) :
    measure_operation operation (some slot) polls minimal_time metadata
        measure_after t0 =
      freshMeasurement operation polls minimal_time metadata measure_after t0 ∧
    (measure_operation operation (some slot) polls minimal_time metadata
        measure_after t0).opInvoked = true ∧
    (measure_operation operation (some slot) polls minimal_time metadata
        measure_after t0).watcherStarted = true ∧
    ∃ r : MeasurementRecord,
      (measure_operation operation (some slot) polls minimal_time metadata
          measure_after t0).outcome = .ok (recordToValue r) ∧
      (measure_operation operation (some slot) polls minimal_time metadata
          measure_after t0).fsAfter =
        some ⟨true, .value (recordToValue r)⟩ := by
  have hcall : measure_operation operation (some slot) polls minimal_time metadata
      measure_after t0 =
      freshMeasurement operation polls minimal_time metadata measure_after t0 :=
    measure_operation_of_not_readable operation (some slot) polls minimal_time
      metadata measure_after t0 (by simp [isReadableFile, hread])
  refine ⟨hcall, ?_, ?_, ?_⟩
  · rw [hcall]; rfl
  · rw [hcall]; rfl
  · rw [hcall]
    exact ⟨_, freshMeasurement_outcome operation polls minimal_time metadata
      measure_after t0, rfl⟩

theorem unreadable_slot_is_cache_miss_overwrite_witness :
    measure_operation ⟨5, .str "res", []⟩ (some ⟨false, .value .null⟩)
        [] none .null false 0 =
      freshMeasurement ⟨5, .str "res", []⟩ [] none .null false 0 ∧
    (measure_operation ⟨5, .str "res", []⟩ (some ⟨false, .value .null⟩)
        [] none .null false 0).opInvoked = true ∧
    (measure_operation ⟨5, .str "res", []⟩ (some ⟨false, .value .null⟩)
        [] none .null false 0).watcherStarted = true ∧
    ∃ r : MeasurementRecord,
      (measure_operation ⟨5, .str "res", []⟩ (some ⟨false, .value .null⟩)
          [] none .null false 0).outcome = .ok (recordToValue r) ∧
      (measure_operation ⟨5, .str "res", []⟩ (some ⟨false, .value .null⟩)
          [] none .null false 0).fsAfter =
        some ⟨true, .value (recordToValue r)⟩ :=
  unreadable_slot_is_cache_miss_overwrite ⟨5, .str "res", []⟩
    ⟨false, .value .null⟩ [] none .null false 0 rfl

/-- C3: on a fresh measurement (no readable cached file) with a
non-negative operation duration, the record the call returns (as its
serialized document) satisfies `stop >= start`, and whenever
`minimal_time` is supplied, `stop - start >= minimal_time`, in both
`measure_after` modes. -/
theorem fresh_record_stop_ge_start_and_minimal_time (operation : OpSpec)
    (result_file : Option FileSlot) (polls : List PollResponse)
    (minimal_time : Option ℚ) (metadata : Value) (measure_after : Bool)
    (t0 : ℚ) (hmiss : isReadableFile result_file = false)
    (hdur : 0 ≤ operation.duration) :
    ∃ r : MeasurementRecord,
      (measure_operation operation result_file polls minimal_time metadata
          measure_after t0).outcome = .ok (recordToValue r) ∧
      r.start ≤ r.stop ∧
      ∀ m : ℚ, minimal_time = some m → m ≤ r.stop - r.start := by
  rw [measure_operation_of_not_readable operation result_file polls minimal_time
    metadata measure_after t0 hmiss]
  refine ⟨_, freshMeasurement_outcome operation polls minimal_time metadata
    measure_after t0, ?_, ?_⟩
  · cases measure_after with
    | false =>
      simp only [Bool.false_eq_true, if_false]
      have h1 := minimalTimeExtension_nonneg minimal_time (t0 + operation.duration - t0)
      linarith
    | true =>
      simp only [if_true]
      have h1 := minimalTimeExtension_nonneg minimal_time
        (t0 + operation.duration - (t0 + operation.duration))
      linarith
  · intro m hm
    subst hm
    cases measure_after with
    | false =>
      simp only [Bool.false_eq_true, if_false, minimalTimeExtension]
      by_cases hm0 : m = 0
      · subst hm0; simp; linarith
      · simp only [hm0, if_false]
        rcases le_total (m - (t0 + operation.duration - t0)) 0 with hle | hle
        · rw [max_eq_right hle]; linarith
        · rw [max_eq_left hle]; ring_nf; linarith
    | true =>
      simp only [if_true, minimalTimeExtension]
      by_cases hm0 : m = 0
      · subst hm0; simp
      · simp only [hm0, if_false]
        rcases le_total (m - (t0 + operation.duration - (t0 + operation.duration))) 0
          with hle | hle
        · rw [max_eq_right hle]; linarith
        · rw [max_eq_left hle]; ring_nf; linarith

theorem fresh_record_stop_ge_start_and_minimal_time_witness :
    ∃ r : MeasurementRecord,
      (measure_operation ⟨5, .str "res", []⟩ none [] (some 10) .null true
          0).outcome = .ok (recordToValue r) ∧
      r.start ≤ r.stop ∧
      ∀ m : ℚ, (some 10 : Option ℚ) = some m → m ≤ r.stop - r.start :=
  fresh_record_stop_ge_start_and_minimal_time ⟨5, .str "res", []⟩ none []
    (some 10) .null true 0 rfl (by norm_num)

/-- C4: on a fresh measurement, with `measure_after` false the start
timestamp is the clock value before the operation runs; with
`measure_after` true the operation runs first and start is the clock value
after it returns — so the `measure_after` start is later by exactly the
operation's duration; in both modes the stop timestamp is captured after
the operation and the (possibly extended) wait, hence is at least the
clock value at operation completion. -/
theorem measure_after_start_capture_policy (operation : OpSpec)
    (result_file : Option FileSlot) (polls : List PollResponse)
    (minimal_time : Option ℚ) (metadata : Value) (t0 : ℚ)
    (hmiss : isReadableFile result_file = false) :
    ∃ rBefore rAfter : MeasurementRecord,
      (measure_operation operation result_file polls minimal_time metadata
          false t0).outcome = .ok (recordToValue rBefore) ∧
      (measure_operation operation result_file polls minimal_time metadata
          true t0).outcome = .ok (recordToValue rAfter) ∧
      rBefore.start = t0 ∧
      rAfter.start = t0 + operation.duration ∧
      rAfter.start = rBefore.start + operation.duration ∧
      t0 + operation.duration ≤ rBefore.stop ∧
      t0 + operation.duration ≤ rAfter.stop := by
  rw [measure_operation_of_not_readable operation result_file polls minimal_time
    metadata false t0 hmiss,
    measure_operation_of_not_readable operation result_file polls minimal_time
    metadata true t0 hmiss]
  refine ⟨_, _, freshMeasurement_outcome operation polls minimal_time metadata
    false t0, freshMeasurement_outcome operation polls minimal_time metadata
    true t0, ?_, ?_, ?_, ?_, ?_⟩
  · rfl
  · rfl
  · rfl
  · have h1 := minimalTimeExtension_nonneg minimal_time (t0 + operation.duration - t0)
    simp only [Bool.false_eq_true, if_false]
    linarith
  · have h1 := minimalTimeExtension_nonneg minimal_time
      (t0 + operation.duration - (t0 + operation.duration))
    simp only [if_true]
    linarith

theorem measure_after_start_capture_policy_witness :
    ∃ rBefore rAfter : MeasurementRecord,
      (measure_operation ⟨7, .str "res", []⟩ none [] (some 10) .null
          false 2).outcome = .ok (recordToValue rBefore) ∧
      (measure_operation ⟨7, .str "res", []⟩ none [] (some 10) .null
          true 2).outcome = .ok (recordToValue rAfter) ∧
      rBefore.start = 2 ∧
      rAfter.start = 2 + (7 : ℚ) ∧
      rAfter.start = rBefore.start + (7 : ℚ) ∧
      (2 : ℚ) + 7 ≤ rBefore.stop ∧
      (2 : ℚ) + 7 ≤ rAfter.stop := by
  have h := measure_after_start_capture_policy ⟨7, .str "res", []⟩ none []
    (some 10) .null 2 rfl
  exact h

/-- C1 evaluation: on a cache miss where the second alerting-API poll
returns a non-success response, the failed `assert` kills only the watcher
thread (`threadDied` is true and the third poll is never issued), but
`Thread.join` returns normally in the main thread, so `measure_operation`
still returns a record — carrying only the alerts accumulated before the
failure — and persists it to the result file.  The failure is therefore
not fatal to the measurement and a record is persisted, contrary to the
evident intent of the assertion in the source. -/
theorem alert_query_failure_not_fatal_eval :
    (measure_operation ⟨1, .str "res", []⟩ none
        [some [Value.str "alertA"], none, some [Value.str "alertB"]]
        none .null false 0).threadDied = true ∧
    (measure_operation ⟨1, .str "res", []⟩ none
        [some [Value.str "alertA"], none, some [Value.str "alertB"]]
        none .null false 0).apiCalls = 2 ∧
    (measure_operation ⟨1, .str "res", []⟩ none
        [some [Value.str "alertA"], none, some [Value.str "alertB"]]
        none .null false 0).outcome =
      .ok (recordToValue
        { start := 0, stop := 1, result := .str "res", metadata := .null,
          prometheus_alerts := [Value.str "alertA"] }) ∧
    (measure_operation ⟨1, .str "res", []⟩ none
        [some [Value.str "alertA"], none, some [Value.str "alertB"]]
        none .null false 0).fsAfter =
      some ⟨true, .value (recordToValue
        { start := 0, stop := 1, result := .str "res", metadata := .null,
          prometheus_alerts := [Value.str "alertA"] })⟩ := by
  refine ⟨rfl, rfl, ?_, ?_⟩ <;>
    simp [measure_operation, freshMeasurement, prometheus_log, processAlert,
      minimalTimeExtension]

/-- C6 evaluation: with a single manager deployment and no pre-existing
result file, the scenario scales the deployment to 0, waits `60 * 6 = 360`
seconds (the record spans exactly 360 seconds) and scales it back to 1 —
but the record's `result` field is the resource object returned by
`oc.get(mgr)`, not the daemon's name string, contrary to the `stop_mgr`
docstring ("Returns: str: Name of downscaled deployment"). -/
theorem stop_ceph_mgr_result_is_resource_object_eval :
    (measure_stop_ceph_mgr ["rook-ceph-mgr-a"] none [] 0).outcome =
      .ok (recordToValue
        { start := 0, stop := 360,
          result := ocGetResource "rook-ceph-mgr-a",
          metadata := .null, prometheus_alerts := [] }) ∧
    ocGetResource "rook-ceph-mgr-a" ≠ Value.str "rook-ceph-mgr-a" ∧
    (∀ v : Value,
      (measure_stop_ceph_mgr ["rook-ceph-mgr-a"] none [] 0).outcome = .ok v →
        v.lookup "result" = some (ocGetResource "rook-ceph-mgr-a") ∧
        v.lookup "result" ≠ some (Value.str "rook-ceph-mgr-a")) ∧
    (measure_stop_ceph_mgr ["rook-ceph-mgr-a"] none [] 0).commands =
      [scaleCmd 0 "rook-ceph-mgr-a", scaleCmd 1 "rook-ceph-mgr-a"] := by
  have houtcome : (measure_stop_ceph_mgr ["rook-ceph-mgr-a"] none [] 0).outcome =
      .ok (recordToValue
        { start := 0, stop := 360,
          result := ocGetResource "rook-ceph-mgr-a",
          metadata := .null, prometheus_alerts := [] }) := by
    simp [measure_stop_ceph_mgr, measure_operation, freshMeasurement,
      prometheus_log, minimalTimeExtension]
    norm_num
  refine ⟨houtcome, by decide, ?_, rfl⟩
  intro v hv
  rw [hv] at houtcome
  rw [Except.ok.inj houtcome]
  exact ⟨by decide, by decide⟩

/-- C7: with more than three listed monitor deployments, exactly the tail
of the listing after index `len // 2` — of size `len - len // 2` — is
scaled to zero; when some stopped name is still present in the follow-up
listing, the fixture first scales every stopped deployment back to 1 and
then fails with the postcondition error, and when all stopped names are
gone it returns the record having issued only the downscale commands. -/
theorem stop_ceph_mon_subset_and_postcondition (mons relisted : List String)
    (polls : List PollResponse) (t0 : ℚ) (h : mons.length > 3) :
    monSplitIndex mons = mons.length / 2 ∧
    (mons.drop (monSplitIndex mons)).length = mons.length - mons.length / 2 ∧
    ((∃ mon ∈ mons.drop (monSplitIndex mons), mon ∈ relisted) →
      (measure_stop_ceph_mon mons relisted none polls t0).outcome =
        .error .postcondition ∧
      (measure_stop_ceph_mon mons relisted none polls t0).commands =
        (mons.drop (monSplitIndex mons)).map (scaleCmd 0) ++
          (mons.drop (monSplitIndex mons)).map (scaleCmd 1)) ∧
    ((∀ mon ∈ mons.drop (monSplitIndex mons), mon ∉ relisted) →
      (∃ r : MeasurementRecord,
        (measure_stop_ceph_mon mons relisted none polls t0).outcome =
          .ok (recordToValue r)) ∧
      (measure_stop_ceph_mon mons relisted none polls t0).commands =
        (mons.drop (monSplitIndex mons)).map (scaleCmd 0)) := by
  have hsplit : monSplitIndex mons = mons.length / 2 := by
    simp [monSplitIndex, h]
  refine ⟨hsplit, by rw [List.length_drop, hsplit], ?_, ?_⟩
  · rintro ⟨mon, hmem, hrel⟩
    have hneg : ¬ ∀ x ∈ mons.drop (monSplitIndex mons), x ∉ relisted :=
      fun hforall => (hforall mon hmem) hrel
    constructor <;>
      simp [measure_stop_ceph_mon, measure_operation, freshMeasurement, hneg]
  · intro hall
    have hok : (measure_stop_ceph_mon mons relisted none polls t0).outcome =
        .ok (recordToValue
          { start := t0,
            stop := t0 + 60 * 12 + minimalTimeExtension none (60 * 12),
            result := Value.ofList (List.drop (monSplitIndex mons)
              (List.map Value.str mons)),
            metadata := Value.null,
            prometheus_alerts := (prometheus_log polls []).alerts }) := by
      simp [measure_stop_ceph_mon, measure_operation, freshMeasurement]
      rw [if_pos hall]
    refine ⟨⟨_, hok⟩, ?_⟩
    simp [measure_stop_ceph_mon, measure_operation, freshMeasurement]
    rw [if_pos hall]

theorem stop_ceph_mon_subset_and_postcondition_witness :
    monSplitIndex ["mon-a", "mon-b", "mon-c", "mon-d"] =
      (["mon-a", "mon-b", "mon-c", "mon-d"] : List String).length / 2 ∧
    ((["mon-a", "mon-b", "mon-c", "mon-d"] : List String).drop
        (monSplitIndex ["mon-a", "mon-b", "mon-c", "mon-d"])).length =
      (["mon-a", "mon-b", "mon-c", "mon-d"] : List String).length -
        (["mon-a", "mon-b", "mon-c", "mon-d"] : List String).length / 2 ∧
    ((∃ mon ∈ (["mon-a", "mon-b", "mon-c", "mon-d"] : List String).drop
        (monSplitIndex ["mon-a", "mon-b", "mon-c", "mon-d"]),
        mon ∈ (["mon-a", "mon-b", "mon-c"] : List String)) →
      (measure_stop_ceph_mon ["mon-a", "mon-b", "mon-c", "mon-d"]
          ["mon-a", "mon-b", "mon-c"] none [] 0).outcome =
        .error .postcondition ∧
      (measure_stop_ceph_mon ["mon-a", "mon-b", "mon-c", "mon-d"]
          ["mon-a", "mon-b", "mon-c"] none [] 0).commands =
        ((["mon-a", "mon-b", "mon-c", "mon-d"] : List String).drop
            (monSplitIndex ["mon-a", "mon-b", "mon-c", "mon-d"])).map (scaleCmd 0) ++
          ((["mon-a", "mon-b", "mon-c", "mon-d"] : List String).drop
            (monSplitIndex ["mon-a", "mon-b", "mon-c", "mon-d"])).map (scaleCmd 1)) ∧
    ((∀ mon ∈ (["mon-a", "mon-b", "mon-c", "mon-d"] : List String).drop
        (monSplitIndex ["mon-a", "mon-b", "mon-c", "mon-d"]),
        mon ∉ (["mon-a", "mon-b", "mon-c"] : List String)) →
      (∃ r : MeasurementRecord,
        (measure_stop_ceph_mon ["mon-a", "mon-b", "mon-c", "mon-d"]
            ["mon-a", "mon-b", "mon-c"] none [] 0).outcome =
          .ok (recordToValue r)) ∧
      (measure_stop_ceph_mon ["mon-a", "mon-b", "mon-c", "mon-d"]
          ["mon-a", "mon-b", "mon-c"] none [] 0).commands =
        ((["mon-a", "mon-b", "mon-c", "mon-d"] : List String).drop
            (monSplitIndex ["mon-a", "mon-b", "mon-c", "mon-d"])).map (scaleCmd 0)) :=
  stop_ceph_mon_subset_and_postcondition ["mon-a", "mon-b", "mon-c", "mon-d"]
    ["mon-a", "mon-b", "mon-c"] [] 0 (by decide)

/-- C9 counterexample: the save of conftest.py lines 137-139 is not
atomic — among the result-file states a concurrent reader can observe
while a record is being persisted there is one (the state right after
`open(result_file, 'w')` truncates the file) that exists, is readable and
does not parse as a measurement record. -/
theorem save_not_atomic_counterexample_eval :
    ∃ s ∈ saveObservableStates
        { start := 0, stop := 1, result := Value.null, metadata := Value.null,
          prometheus_alerts := [] },
      s.readable = true ∧ parseSlot s.content = none := by
  refine ⟨⟨true, .truncated⟩, ?_, rfl, rfl⟩
  simp [saveObservableStates]

/-- C9 amended: persisting a record opens the result file with truncation
and then dumps the serialized record in place — no temp-file-and-rename
step exists — so a reader polling the slot mid-save observes the truncated
state, which does not parse as a record (and a failure during
serialization would leave that state behind); only after the dump
completes does the slot hold the document that parses back to exactly the
persisted record. -/
theorem save_truncate_then_write_in_place (r : MeasurementRecord) :
    (saveObservableStates r).head? = some ⟨true, SlotContent.truncated⟩ ∧
    parseSlot SlotContent.truncated = none ∧
    (saveObservableStates r).getLast? =
      some ⟨true, SlotContent.value (recordToValue r)⟩ ∧
    parseSlot (SlotContent.value (recordToValue r)) = some r :=
  ⟨rfl, rfl, rfl, parseRecord_recordToValue r⟩
